import Mathlib

/-!
Verification development for the dense expression/evaluation core of the
repository (generic matrix handles, the Addition expression node, checked and
unchecked random access, materialization via `eval`) together with the serial
index layout of the sparse crate.

The Rust code is shallowly embedded: machine indices (`usize`) become `Nat`,
fallible operations become `Option`, and a fatal assertion (a Rust panic)
becomes the `Except.error` branch of an `Except Unit` result so that the two
failure disciplines of the checked access tiers stay distinguishable.
Compile-time size tags (`RS`, `CS`) carry no runtime information and are
dropped.  The generic `Scalar` item type becomes a type parameter `Item` with
the algebraic operations the code uses (`Add`, `Mul`, `Zero`).
-/

/-- Modelled from the spec: the Memory Layout Descriptor (`DefaultLayout`),
whose implementation is not under `src/` (only its construction in
`Addition::new` is). Per spec §3 it stores the two-dimensional extent
`dim = (rows, cols)` plus internal stride state, and converts between 2D
coordinates and flat indices under the row-major convention
`flat = row * cols + col`. -/
structure DefaultLayout where
  dim : Nat × Nat
  stride : Nat × Nat
deriving DecidableEq

/-- Modelled from the spec: `DefaultLayout::from_dimension(dim, stride)` as
called from `Addition::new` in src/dense/src/addition.rs. -/
def DefaultLayout.from_dimension (dim : Nat × Nat) (stride : Nat × Nat) : DefaultLayout :=
  ⟨dim, stride⟩

/-- Modelled from the spec: `rows * cols` equals the number of addressable
elements (spec §3). -/
def DefaultLayout.number_of_elements (l : DefaultLayout) : Nat :=
  l.dim.1 * l.dim.2

/-- Modelled from the spec: 2D-to-flat conversion, row-major
(`flat = row * cols + col`, spec §3). -/
def DefaultLayout.convert_2d_1d (l : DefaultLayout) (row col : Nat) : Nat :=
  row * l.dim.2 + col

/-- Modelled from the spec: flat-to-2D conversion, the inverse direction of
the row-major mapping (spec §3). -/
def DefaultLayout.convert_1d_2d (l : DefaultLayout) (index : Nat) : Nat × Nat :=
  (index / l.dim.2, index % l.dim.2)

/-- Modelled from the spec: Owned Dense Storage (spec §3), the terminal
backing implementation owning a flat buffer of Item values, with its layout.
The concrete container type is not under `src/`; the buffer is held in the
layout's row-major traversal order.  This plays the role of `MatrixD`, the
return type of `Matrix::eval`. -/
structure MatrixD (Item : Type) where
  data : List Item
  layout : DefaultLayout
deriving DecidableEq

variable {Item : Type}

/-- Modelled from the spec: `MatrixD::zeros_from_dim` (called in
`Matrix::eval`, src/dense/src/matrix/common_impl.rs): new storage of the given
dimension initialized to the Item type's zero value. -/
def MatrixD.zeros_from_dim [Zero Item] (rows cols : Nat) : MatrixD Item :=
  ⟨List.replicate (rows * cols) 0, DefaultLayout.from_dimension (rows, cols) (1, rows)⟩

/-- Unchecked by-value access of owned storage: read the buffer at the
layout's flat offset.  Out-of-range unchecked access is undefined behavior in
the source; the embedding returns the zero default there. -/
def MatrixD.get_value_unchecked [Zero Item] (mat : MatrixD Item) (row col : Nat) : Item :=
  mat.data.getD (mat.layout.convert_2d_1d row col) 0

/-- Unchecked flat-index by-value access of owned storage. -/
def MatrixD.get1d_value_unchecked [Zero Item] (mat : MatrixD Item) (index : Nat) : Item :=
  mat.data.getD index 0

/-- The write `*mat.get_unchecked_mut(row, col) = value` on owned storage
(the only backing implementation with a mutable tier, spec §5). -/
def MatrixD.set (mat : MatrixD Item) (row col : Nat) (value : Item) : MatrixD Item :=
  ⟨mat.data.set (mat.layout.convert_2d_1d row col) value, mat.layout⟩

/-- `RandomAccessByRef::get` for owned storage, from the blanket impl in
src/dense/src/traits/random_access.rs: bounds check (`check_dimension`), then
delegate to the unchecked tier; `none` is Rust's `None`. -/
def MatrixD.get [Zero Item] (mat : MatrixD Item) (row col : Nat) : Option Item :=
  if row < mat.layout.dim.1 ∧ col < mat.layout.dim.2 then
    some (mat.get_value_unchecked row col)
  else
    none

/-- `RandomAccessByRef::get1d` for owned storage (blanket impl,
src/dense/src/traits/random_access.rs). -/
def MatrixD.get1d [Zero Item] (mat : MatrixD Item) (elem : Nat) : Option Item :=
  if elem < mat.layout.number_of_elements then
    some (mat.get1d_value_unchecked elem)
  else
    none

/-- `RandomAccessMut::get_mut` for owned storage (blanket impl,
src/dense/src/traits/random_access.rs); the embedding returns the element the
returned mutable reference denotes. -/
def MatrixD.get_mut [Zero Item] (mat : MatrixD Item) (row col : Nat) : Option Item :=
  if row < mat.layout.dim.1 ∧ col < mat.layout.dim.2 then
    some (mat.get_value_unchecked row col)
  else
    none

/-- `RandomAccessMut::get1d_mut` for owned storage (blanket impl,
src/dense/src/traits/random_access.rs). -/
def MatrixD.get1d_mut [Zero Item] (mat : MatrixD Item) (elem : Nat) : Option Item :=
  if elem < mat.layout.number_of_elements then
    some (mat.get1d_value_unchecked elem)
  else
    none

/-- The universe of matrix handles of the dense core: a `Matrix` wrapper is a
transparent single-field wrapper around its backing implementation
(src/dense/src/matrix/common_impl.rs forwards every access verbatim), so a
handle is identified with its backing implementation tree.  Constructors:
owned dense storage (terminal leaf), the Borrowed View Adapter `MatrixRef`,
the `Addition` expression node (src/dense/src/addition.rs, which stores its
own `DefaultLayout` computed at construction), and the scalar-multiplication
node (modelled from the spec, §4.4: a sibling unary expression node computing
`scalar * operand` elementwise; its source is not under `src/`). -/
inductive MatrixHandle (Item : Type) where
  | base (mat : MatrixD Item)
  | matrixRef (mat : MatrixHandle Item)
  | addition (mat1 mat2 : MatrixHandle Item) (layout : DefaultLayout)
  | scalarMult (scalar : Item) (mat : MatrixHandle Item)
deriving DecidableEq

/-- `Layout::layout` of a handle: owned storage and expression nodes carry
their own layout; `MatrixRef` and `ScalarMult` forward to the operand. -/
def MatrixHandle.layout : MatrixHandle Item → DefaultLayout
  | .base mat => mat.layout
  | .matrixRef mat => mat.layout
  | .addition _ _ l => l
  | .scalarMult _ mat => mat.layout

/-- `Matrix::dim` (src/dense/src/matrix/common_impl.rs): delegates to the
layout. -/
def MatrixHandle.dim (mat : MatrixHandle Item) : Nat × Nat :=
  mat.layout.dim

/-- `UnsafeRandomAccessByValue::get_value_unchecked`, by recursion over the
backing implementation: storage reads its buffer, `MatrixRef` forwards, the
Addition node returns `operand1.get_value_unchecked(row, col) +
operand2.get_value_unchecked(row, col)` (src/dense/src/addition.rs), and the
scalar node multiplies. -/
def MatrixHandle.get_value_unchecked [Add Item] [Mul Item] [Zero Item] :
    MatrixHandle Item → Nat → Nat → Item
  | .base mat, row, col => mat.get_value_unchecked row col
  | .matrixRef mat, row, col => mat.get_value_unchecked row col
  | .addition mat1 mat2 _, row, col =>
      mat1.get_value_unchecked row col + mat2.get_value_unchecked row col
  | .scalarMult scalar mat, row, col => scalar * mat.get_value_unchecked row col

/-- `UnsafeRandomAccessByValue::get1d_value_unchecked`, the flat-index
analogue (src/dense/src/addition.rs lines 106-109 for the Addition case). -/
def MatrixHandle.get1d_value_unchecked [Add Item] [Mul Item] [Zero Item] :
    MatrixHandle Item → Nat → Item
  | .base mat, index => mat.get1d_value_unchecked index
  | .matrixRef mat, index => mat.get1d_value_unchecked index
  | .addition mat1 mat2 _, index =>
      mat1.get1d_value_unchecked index + mat2.get1d_value_unchecked index
  | .scalarMult scalar mat, index => scalar * mat.get1d_value_unchecked index

/-- `RandomAccessByValue::get_value` (blanket impl,
src/dense/src/traits/random_access.rs): `assert_dimension` checks the row
bound first, then the column bound, and panics on violation
(`Except.error ()` in the embedding); in range it delegates to the unchecked
tier. -/
def MatrixHandle.get_value [Add Item] [Mul Item] [Zero Item] (mat : MatrixHandle Item)
    (row col : Nat) : Except Unit Item :=
  if row < mat.layout.dim.1 then
    if col < mat.layout.dim.2 then
      .ok (mat.get_value_unchecked row col)
    else
      .error ()
  else
    .error ()

/-- `RandomAccessByValue::get1d_value` (blanket impl,
src/dense/src/traits/random_access.rs): `assert_dimension1d` against
`number_of_elements`, then the unchecked tier. -/
def MatrixHandle.get1d_value [Add Item] [Mul Item] [Zero Item] (mat : MatrixHandle Item)
    (elem : Nat) : Except Unit Item :=
  if elem < mat.layout.number_of_elements then
    .ok (mat.get1d_value_unchecked elem)
  else
    .error ()

/-- `Matrix::from_ref`: wrap a borrowed handle in the Borrowed View Adapter. -/
def MatrixHandle.from_ref (mat : MatrixHandle Item) : MatrixHandle Item :=
  .matrixRef mat

/-- `Addition::new` (src/dense/src/addition.rs): assert the two operand
dimensions are equal (a failed assertion panics, modelled by `none`), then
store the operands together with
`DefaultLayout::from_dimension(dim, (1, dim.0))`. -/
def Addition.new (mat1 mat2 : MatrixHandle Item) : Option (MatrixHandle Item) :=
  if mat1.layout.dim = mat2.layout.dim then
    some (.addition mat1 mat2
      (DefaultLayout.from_dimension mat1.layout.dim (1, mat1.layout.dim.1)))
  else
    none

/-- `Matrix::eval` (src/dense/src/matrix/common_impl.rs), with the source
handle threaded through the loop state explicitly so that the frame property
(the loop never writes to the source) is expressible: allocate zero storage of
the source's dimension, then for `row in 0..dim.0`, `col in 0..dim.1` perform
`*result.get_unchecked_mut(row, col) = self.get_value_unchecked(row, col)`. -/
def MatrixHandle.evalLoop [Add Item] [Mul Item] [Zero Item] (mat : MatrixHandle Item) :
    MatrixHandle Item × MatrixD Item :=
  (List.range mat.layout.dim.1).foldl
    (fun st row =>
      (List.range mat.layout.dim.2).foldl
        (fun st2 col => (st2.1, st2.2.set row col (st2.1.get_value_unchecked row col)))
        st)
    (mat, MatrixD.zeros_from_dim mat.layout.dim.1 mat.layout.dim.2)

/-- `Matrix::eval`: the destination component of the evaluation loop. -/
def MatrixHandle.eval [Add Item] [Mul Item] [Zero Item] (mat : MatrixHandle Item) :
    MatrixD Item :=
  mat.evalLoop.2

/-- Structural well-formedness of a handle, established by the construction
surface: the layout an Addition node stored at construction has the common
operand dimension (`Addition::new` asserts equality and copies the
dimension). -/
def MatrixHandle.wf : MatrixHandle Item → Bool
  | .base _ => true
  | .matrixRef mat => mat.wf
  | .addition mat1 mat2 l =>
      mat1.wf && mat2.wf && decide (mat1.layout.dim = l.dim)
        && decide (mat2.layout.dim = l.dim)
  | .scalarMult _ mat => mat.wf

/-- The sequence of coordinates the `eval` loop writes, in loop order: all
`(row, col)` with `row < rows`, `col < cols`, row-major. -/
def evalPairs (rows cols : Nat) : List (Nat × Nat) :=
  (List.range rows).flatMap (fun row => (List.range cols).map (fun col => (row, col)))

/-- The destination component of the `eval` loop, written as a fold that only
touches the destination (the source handle is a fixed parameter); proved below
to coincide with `evalLoop`. -/
def MatrixHandle.evalPure [Add Item] [Mul Item] [Zero Item] (mat : MatrixHandle Item) :
    MatrixD Item :=
  (List.range mat.layout.dim.1).foldl
    (fun d row =>
      (List.range mat.layout.dim.2).foldl
        (fun d2 col => d2.set row col (mat.get_value_unchecked row col))
        d)
    (MatrixD.zeros_from_dim mat.layout.dim.1 mat.layout.dim.2)

/-- `DefaultSerialIndexLayout`
(src/sparse/src/index_layout/default_serial_index_layout.rs): an index layout
for a single participant holding all indices. -/
structure DefaultSerialIndexLayout where
  size : Nat
deriving DecidableEq

/-- `DefaultSerialIndexLayout::new`. -/
def DefaultSerialIndexLayout.new (size : Nat) : DefaultSerialIndexLayout :=
  ⟨size⟩

/-- `IndexLayout::number_of_global_indices` for the serial layout. -/
def DefaultSerialIndexLayout.number_of_global_indices (l : DefaultSerialIndexLayout) : Nat :=
  l.size

/-- `IndexLayout::number_of_local_indices` for the serial layout: delegates to
the global count. -/
def DefaultSerialIndexLayout.number_of_local_indices (l : DefaultSerialIndexLayout) : Nat :=
  l.number_of_global_indices

/-- `IndexLayout::local2global` for the serial layout. -/
def DefaultSerialIndexLayout.local2global (l : DefaultSerialIndexLayout) (index : Nat) :
    Option Nat :=
  if index < l.number_of_local_indices then some index else none

/-- `IndexLayout::global2local` for the serial layout. -/
def DefaultSerialIndexLayout.global2local (l : DefaultSerialIndexLayout) (rank index : Nat) :
    Option Nat :=
  if rank = 0 ∧ index < l.number_of_global_indices then some index else none

/-- `IndexLayout::rank_from_index` for the serial layout. -/
def DefaultSerialIndexLayout.rank_from_index (l : DefaultSerialIndexLayout) (index : Nat) :
    Option Nat :=
  if index < l.number_of_global_indices then some 0 else none

/-- A concrete 1×2 owned storage value used to instantiate theorems. -/
def sampleD : MatrixD Int :=
  ⟨[1, 2], DefaultLayout.from_dimension (1, 2) (1, 1)⟩

/-- A concrete 1×2 handle over owned storage. -/
def sampleA : MatrixHandle Int :=
  .base sampleD

/-- A second concrete 1×2 handle over owned storage. -/
def sampleB : MatrixHandle Int :=
  .base ⟨[10, 20], DefaultLayout.from_dimension (1, 2) (1, 1)⟩

/-- A concrete 2×2 handle, dimensioned differently from `sampleA`. -/
def sampleC : MatrixHandle Int :=
  .base ⟨[3, 4, 5, 6], DefaultLayout.from_dimension (2, 2) (1, 2)⟩

/-- The worked scenario's first operand: a 2×3 zero matrix with the entry at
(1, 2) set to 5 through the mutable tier (`mat1[[1, 2]] = 5.0`).  The f64
values of the source test are integers on which floating-point arithmetic is
exact, so they are modelled by exact integers. -/
def scenarioA : MatrixD Int :=
  (MatrixD.zeros_from_dim 2 3).set 1 2 5

/-- The worked scenario's second operand: a 2×3 zero matrix with the entry at
(1, 2) set to 6 (`mat2[[1, 2]] = 6.0`). -/
def scenarioB : MatrixD Int :=
  (MatrixD.zeros_from_dim 2 3).set 1 2 6

section Theorems

variable {α β γ : Type}

lemma flat_lt {row col rows cols : Nat} (hr : row < rows) (hc : col < cols) :
    row * cols + col < rows * cols := by
  calc row * cols + col < row * cols + cols := by omega
    _ = (row + 1) * cols := by ring
    _ ≤ rows * cols := Nat.mul_le_mul_right cols hr

lemma flat_div {row col cols : Nat} (hc : col < cols) : (row * cols + col) / cols = row := by
  have hpos : 0 < cols := by omega
  rw [Nat.mul_comm, Nat.mul_add_div hpos, Nat.div_eq_of_lt hc, Nat.add_zero]

lemma flat_mod {row col cols : Nat} (hc : col < cols) : (row * cols + col) % cols = col := by
  have hpos : 0 < cols := by omega
  rw [Nat.mul_comm, Nat.mul_add_mod, Nat.mod_eq_of_lt hc]

end Theorems

lemma flat_pair_inj {r1 c1 r2 c2 cols : Nat} (h1 : c1 < cols) (h2 : c2 < cols)
    (h : r1 * cols + c1 = r2 * cols + c2) : r1 = r2 ∧ c1 = c2 := by
  have hr : r1 = r2 := by
    have e1 := @flat_div r1 c1 cols h1
    have e2 := @flat_div r2 c2 cols h2
    rw [← e1, ← e2, h]
  refine ⟨hr, ?_⟩
  subst hr
  omega

/-- C5: for a `DefaultLayout` with `dim = (rows, cols)`, the 2D-to-flat
conversion is row-major (`flat = row * cols + col`), and the two conversions
are total functions that are mutually inverse on flat indices below
`rows * cols` (both directions land in range). -/
theorem default_layout_row_major_inverse (rows cols : Nat) (stride : Nat × Nat) :
    (∀ row col, row < rows → col < cols →
      (DefaultLayout.from_dimension (rows, cols) stride).convert_2d_1d row col =
        row * cols + col ∧
      (DefaultLayout.from_dimension (rows, cols) stride).convert_2d_1d row col <
        (DefaultLayout.from_dimension (rows, cols) stride).number_of_elements ∧
      (DefaultLayout.from_dimension (rows, cols) stride).convert_1d_2d
        ((DefaultLayout.from_dimension (rows, cols) stride).convert_2d_1d row col) =
        (row, col)) ∧
    (∀ index, index < (DefaultLayout.from_dimension (rows, cols) stride).number_of_elements →
      ((DefaultLayout.from_dimension (rows, cols) stride).convert_1d_2d index).1 < rows ∧
      ((DefaultLayout.from_dimension (rows, cols) stride).convert_1d_2d index).2 < cols ∧
      (DefaultLayout.from_dimension (rows, cols) stride).convert_2d_1d
        ((DefaultLayout.from_dimension (rows, cols) stride).convert_1d_2d index).1
        ((DefaultLayout.from_dimension (rows, cols) stride).convert_1d_2d index).2 =
        index) := by
  constructor
  · intro row col hr hc
    refine ⟨rfl, flat_lt hr hc, ?_⟩
    simp only [DefaultLayout.convert_1d_2d, DefaultLayout.convert_2d_1d,
      DefaultLayout.from_dimension]
    rw [flat_div hc, flat_mod hc]
  · intro index hidx
    simp only [DefaultLayout.number_of_elements, DefaultLayout.from_dimension] at hidx
    have hcpos : 0 < cols := by
      rcases Nat.eq_zero_or_pos cols with h | h
      · subst h
        simp at hidx
      · exact h
    simp only [DefaultLayout.convert_1d_2d, DefaultLayout.convert_2d_1d,
      DefaultLayout.from_dimension, DefaultLayout.number_of_elements]
    refine ⟨?_, Nat.mod_lt index hcpos, ?_⟩
    · exact (Nat.div_lt_iff_lt_mul hcpos).mpr hidx
    · rw [Nat.mul_comm]
      exact Nat.div_add_mod index cols

/-- C5 witness: the row-major conversion at a concrete 2×3 layout. -/
theorem default_layout_row_major_inverse_instance :
    ((DefaultLayout.from_dimension (2, 3) (1, 2)).convert_2d_1d 1 2 = 1 * 3 + 2 ∧
      (DefaultLayout.from_dimension (2, 3) (1, 2)).convert_2d_1d 1 2 <
        (DefaultLayout.from_dimension (2, 3) (1, 2)).number_of_elements ∧
      (DefaultLayout.from_dimension (2, 3) (1, 2)).convert_1d_2d
        ((DefaultLayout.from_dimension (2, 3) (1, 2)).convert_2d_1d 1 2) = (1, 2)) ∧
    (((DefaultLayout.from_dimension (2, 3) (1, 2)).convert_1d_2d 4).1 < 2 ∧
      ((DefaultLayout.from_dimension (2, 3) (1, 2)).convert_1d_2d 4).2 < 3 ∧
      (DefaultLayout.from_dimension (2, 3) (1, 2)).convert_2d_1d
        ((DefaultLayout.from_dimension (2, 3) (1, 2)).convert_1d_2d 4).1
        ((DefaultLayout.from_dimension (2, 3) (1, 2)).convert_1d_2d 4).2 = 4) :=
  ⟨(default_layout_row_major_inverse 2 3 (1, 2)).1 1 2 (by decide) (by decide),
   (default_layout_row_major_inverse 2 3 (1, 2)).2 4 (by decide)⟩

/-- C3: `Addition::new` fails (the dimension assertion fires) exactly when the
two operand dimensions differ; on success the node's layout carries the common
operand dimension. -/
theorem addition_new_dimension_check (mat1 mat2 : MatrixHandle Item) :
    (Addition.new mat1 mat2 = none ↔ mat1.layout.dim ≠ mat2.layout.dim) ∧
    (∀ node, Addition.new mat1 mat2 = some node →
      node.layout.dim = mat1.layout.dim ∧ node.layout.dim = mat2.layout.dim) := by
  unfold Addition.new
  split_ifs with h
  · refine ⟨by simp [h], ?_⟩
    intro node hnode
    simp only [Option.some.injEq] at hnode
    subst hnode
    exact ⟨rfl, h ▸ rfl⟩
  · exact ⟨by simp [h], fun node hnode => by simp at hnode⟩

/-- C3 witness: construction succeeds on matching 1×2 operands with the common
dimension, and the mismatch direction of the iff at concrete operands of
differing dimension. -/
theorem addition_new_dimension_check_instance :
    (Addition.new sampleA sampleC = none ↔
      sampleA.layout.dim ≠ sampleC.layout.dim) ∧
    ((MatrixHandle.addition sampleA sampleB
        (DefaultLayout.from_dimension (1, 2) (1, 1))).layout.dim = sampleA.layout.dim ∧
      (MatrixHandle.addition sampleA sampleB
        (DefaultLayout.from_dimension (1, 2) (1, 1))).layout.dim = sampleB.layout.dim) :=
  ⟨(addition_new_dimension_check sampleA sampleC).1,
   (addition_new_dimension_check sampleA sampleB).2
     (MatrixHandle.addition sampleA sampleB (DefaultLayout.from_dimension (1, 2) (1, 1)))
     (by decide)⟩

/-- C1: reading an Addition node built by `Addition::new` at an in-range
coordinate returns the sum of the two operand elements at that coordinate; the
checked reads of the operands themselves return those same elements. -/
theorem addition_elementwise_correct [Add Item] [Mul Item] [Zero Item]
    (A B node : MatrixHandle Item) (h : Addition.new A B = some node)
    (row col : Nat) (hr : row < node.layout.dim.1) (hc : col < node.layout.dim.2) :
    node.get_value row col =
      .ok (A.get_value_unchecked row col + B.get_value_unchecked row col) ∧
    A.get_value row col = .ok (A.get_value_unchecked row col) ∧
    B.get_value row col = .ok (B.get_value_unchecked row col) := by
  unfold Addition.new at h
  split_ifs at h with hdim
  · simp only [Option.some.injEq] at h
    subst h
    simp only [MatrixHandle.layout, DefaultLayout.from_dimension] at hr hc
    refine ⟨?_, ?_, ?_⟩
    · simp [MatrixHandle.get_value, MatrixHandle.layout, DefaultLayout.from_dimension,
        hr, hc, MatrixHandle.get_value_unchecked]
    · simp [MatrixHandle.get_value, hr, hc]
    · simp [MatrixHandle.get_value, ← hdim, hr, hc]

/-- C1 witness: the concrete Addition node over `sampleA` and `sampleB` at
coordinate (0, 1). -/
theorem addition_elementwise_correct_instance :
    (MatrixHandle.addition sampleA sampleB
        (DefaultLayout.from_dimension (1, 2) (1, 1))).get_value 0 1 =
      .ok (sampleA.get_value_unchecked 0 1 + sampleB.get_value_unchecked 0 1) ∧
    sampleA.get_value 0 1 = .ok (sampleA.get_value_unchecked 0 1) ∧
    sampleB.get_value 0 1 = .ok (sampleB.get_value_unchecked 0 1) :=
  addition_elementwise_correct sampleA sampleB
    (MatrixHandle.addition sampleA sampleB (DefaultLayout.from_dimension (1, 2) (1, 1)))
    (by decide) 0 1 (by decide) (by decide)

/-- C10: for a `DefaultSerialIndexLayout` of size `n`: `local2global` and
`global2local(0, ·)` return the index itself below `n` and `none` past it,
`global2local` rejects every nonzero rank, `rank_from_index` maps every index
below `n` to rank 0 and rejects the rest, and the two translations are
mutually inverse below `n`. -/
theorem serial_index_layout_maps (n index rank : Nat) :
    (index < n →
      (DefaultSerialIndexLayout.new n).local2global index = some index ∧
      (DefaultSerialIndexLayout.new n).global2local 0 index = some index ∧
      (DefaultSerialIndexLayout.new n).rank_from_index index = some 0 ∧
      ((DefaultSerialIndexLayout.new n).local2global index).bind
        ((DefaultSerialIndexLayout.new n).global2local 0) = some index ∧
      ((DefaultSerialIndexLayout.new n).global2local 0 index).bind
        (DefaultSerialIndexLayout.new n).local2global = some index) ∧
    (¬ index < n →
      (DefaultSerialIndexLayout.new n).local2global index = none ∧
      (DefaultSerialIndexLayout.new n).global2local 0 index = none ∧
      (DefaultSerialIndexLayout.new n).rank_from_index index = none) ∧
    (rank ≠ 0 → (DefaultSerialIndexLayout.new n).global2local rank index = none) := by
  refine ⟨fun h => ?_, fun h => ?_, fun h => ?_⟩
  · simp [DefaultSerialIndexLayout.local2global, DefaultSerialIndexLayout.global2local,
      DefaultSerialIndexLayout.rank_from_index, DefaultSerialIndexLayout.new,
      DefaultSerialIndexLayout.number_of_local_indices,
      DefaultSerialIndexLayout.number_of_global_indices, h]
  · simp [DefaultSerialIndexLayout.local2global, DefaultSerialIndexLayout.global2local,
      DefaultSerialIndexLayout.rank_from_index, DefaultSerialIndexLayout.new,
      DefaultSerialIndexLayout.number_of_local_indices,
      DefaultSerialIndexLayout.number_of_global_indices, h]
  · simp [DefaultSerialIndexLayout.global2local, DefaultSerialIndexLayout.new,
      DefaultSerialIndexLayout.number_of_global_indices, h]

/-- C10 witness: size 14 (the layout of the source's own test), index 2 in
range, index 20 out of range, rank 1 rejected. -/
theorem serial_index_layout_maps_instance :
    ((DefaultSerialIndexLayout.new 14).local2global 2 = some 2 ∧
      (DefaultSerialIndexLayout.new 14).global2local 0 2 = some 2 ∧
      (DefaultSerialIndexLayout.new 14).rank_from_index 2 = some 0 ∧
      ((DefaultSerialIndexLayout.new 14).local2global 2).bind
        ((DefaultSerialIndexLayout.new 14).global2local 0) = some 2 ∧
      ((DefaultSerialIndexLayout.new 14).global2local 0 2).bind
        (DefaultSerialIndexLayout.new 14).local2global = some 2) ∧
    ((DefaultSerialIndexLayout.new 14).local2global 20 = none ∧
      (DefaultSerialIndexLayout.new 14).global2local 0 20 = none ∧
      (DefaultSerialIndexLayout.new 14).rank_from_index 20 = none) ∧
    (DefaultSerialIndexLayout.new 14).global2local 1 2 = none :=
  ⟨(serial_index_layout_maps 14 2 1).1 (by decide),
   (serial_index_layout_maps 14 20 1).2.1 (by decide),
   (serial_index_layout_maps 14 2 1).2.2 (by decide)⟩

/-- C4: the checked by-value accessors of any handle return the element in
range and fail fatally out of range; the checked reference-tier and
mutable-reference-tier accessors of owned storage return `some` element in
range and `none` out of range. -/
theorem checked_access_bounds_behavior [Add Item] [Mul Item] [Zero Item]
    (mat : MatrixHandle Item) (b : MatrixD Item) (row col elem : Nat) :
    (row < mat.layout.dim.1 → col < mat.layout.dim.2 →
      mat.get_value row col = .ok (mat.get_value_unchecked row col)) ∧
    (¬ (row < mat.layout.dim.1 ∧ col < mat.layout.dim.2) →
      mat.get_value row col = .error ()) ∧
    (elem < mat.layout.number_of_elements →
      mat.get1d_value elem = .ok (mat.get1d_value_unchecked elem)) ∧
    (¬ elem < mat.layout.number_of_elements → mat.get1d_value elem = .error ()) ∧
    (row < b.layout.dim.1 → col < b.layout.dim.2 →
      b.get row col = some (b.get_value_unchecked row col) ∧
      b.get_mut row col = some (b.get_value_unchecked row col)) ∧
    (¬ (row < b.layout.dim.1 ∧ col < b.layout.dim.2) →
      b.get row col = none ∧ b.get_mut row col = none) ∧
    (elem < b.layout.number_of_elements →
      b.get1d elem = some (b.get1d_value_unchecked elem) ∧
      b.get1d_mut elem = some (b.get1d_value_unchecked elem)) ∧
    (¬ elem < b.layout.number_of_elements →
      b.get1d elem = none ∧ b.get1d_mut elem = none) := by
  refine ⟨fun h1 h2 => ?_, fun h => ?_, fun h => ?_, fun h => ?_,
    fun h1 h2 => ?_, fun h => ?_, fun h => ?_, fun h => ?_⟩
  · simp [MatrixHandle.get_value, h1, h2]
  · rw [MatrixHandle.get_value]
    split_ifs with g1 g2
    · exact absurd ⟨g1, g2⟩ h
    · rfl
    · rfl
  · simp [MatrixHandle.get1d_value, h]
  · simp [MatrixHandle.get1d_value, h]
  · exact ⟨by simp [MatrixD.get, h1, h2], by simp [MatrixD.get_mut, h1, h2]⟩
  · exact ⟨by simp [MatrixD.get, h], by simp [MatrixD.get_mut, h]⟩
  · exact ⟨by simp [MatrixD.get1d, h], by simp [MatrixD.get1d_mut, h]⟩
  · exact ⟨by simp [MatrixD.get1d, h], by simp [MatrixD.get1d_mut, h]⟩

/-- C4 witness: in-range coordinate (0, 1) and flat index 1, out-of-range row
5 and flat index 9, on the concrete 1×2 storage. -/
theorem checked_access_bounds_behavior_instance :
    sampleA.get_value 0 1 = .ok (sampleA.get_value_unchecked 0 1) ∧
    sampleA.get_value 5 1 = .error () ∧
    sampleA.get1d_value 1 = .ok (sampleA.get1d_value_unchecked 1) ∧
    sampleA.get1d_value 9 = .error () ∧
    (sampleD.get 0 1 = some (sampleD.get_value_unchecked 0 1) ∧
      sampleD.get_mut 0 1 = some (sampleD.get_value_unchecked 0 1)) ∧
    (sampleD.get 5 1 = none ∧ sampleD.get_mut 5 1 = none) ∧
    (sampleD.get1d 1 = some (sampleD.get1d_value_unchecked 1) ∧
      sampleD.get1d_mut 1 = some (sampleD.get1d_value_unchecked 1)) ∧
    (sampleD.get1d 9 = none ∧ sampleD.get1d_mut 9 = none) :=
  ⟨(checked_access_bounds_behavior sampleA sampleD 0 1 1).1 (by decide) (by decide),
   (checked_access_bounds_behavior sampleA sampleD 5 1 1).2.1 (by decide),
   (checked_access_bounds_behavior sampleA sampleD 0 1 1).2.2.1 (by decide),
   (checked_access_bounds_behavior sampleA sampleD 0 1 9).2.2.2.1 (by decide),
   (checked_access_bounds_behavior sampleA sampleD 0 1 1).2.2.2.2.1 (by decide) (by decide),
   (checked_access_bounds_behavior sampleA sampleD 5 1 1).2.2.2.2.2.1 (by decide),
   (checked_access_bounds_behavior sampleA sampleD 0 1 1).2.2.2.2.2.2.1 (by decide),
   (checked_access_bounds_behavior sampleA sampleD 0 1 9).2.2.2.2.2.2.2 (by decide)⟩

lemma evalLoop_inner_aux [Add Item] [Mul Item] [Zero Item] (r : Nat) :
    ∀ (l : List Nat) (mat : MatrixHandle Item) (d : MatrixD Item),
      l.foldl
        (fun st2 col => (st2.1, st2.2.set r col (st2.1.get_value_unchecked r col)))
        (mat, d)
      = (mat, l.foldl (fun d3 col => d3.set r col (mat.get_value_unchecked r col)) d) := by
  intro l
  induction l with
  | nil => intro mat d; rfl
  | cons c cs ih =>
    intro mat d
    simp only [List.foldl_cons]
    exact ih _ _

lemma evalLoop_aux [Add Item] [Mul Item] [Zero Item] (mat : MatrixHandle Item) (cols : Nat) :
    ∀ (l : List Nat) (d : MatrixD Item),
      l.foldl
        (fun st row =>
          (List.range cols).foldl
            (fun st2 col => (st2.1, st2.2.set row col (st2.1.get_value_unchecked row col)))
            st)
        (mat, d)
      = (mat,
          l.foldl
            (fun d2 row =>
              (List.range cols).foldl
                (fun d3 col => d3.set row col (mat.get_value_unchecked row col)) d2)
            d) := by
  intro l
  induction l with
  | nil => intro d; rfl
  | cons r rs ih =>
    intro d
    simp only [List.foldl_cons]
    rw [evalLoop_inner_aux r (List.range cols) mat d]
    exact ih _

/-- The evaluation loop splits: its source component is the untouched input
handle, its destination component is the pure destination fold. -/
lemma evalLoop_eq [Add Item] [Mul Item] [Zero Item] (mat : MatrixHandle Item) :
    mat.evalLoop = (mat, mat.evalPure) := by
  unfold MatrixHandle.evalLoop MatrixHandle.evalPure
  exact evalLoop_aux mat mat.layout.dim.2 (List.range mat.layout.dim.1)
    (MatrixD.zeros_from_dim mat.layout.dim.1 mat.layout.dim.2)

lemma foldl_flatMap_eq {α β γ : Type} (g : β → List γ) (f : α → γ → α) :
    ∀ (l : List β) (a : α),
      (l.flatMap g).foldl f a = l.foldl (fun acc x => (g x).foldl f acc) a := by
  intro l
  induction l with
  | nil => intro a; rfl
  | cons x xs ih =>
    intro a
    rw [List.flatMap_cons, List.foldl_append, List.foldl_cons]
    exact ih _

/-- The nested evaluation loop is the fold of the write action over the
coordinate sequence `evalPairs`. -/
lemma evalPure_pairs [Add Item] [Mul Item] [Zero Item] (mat : MatrixHandle Item) :
    mat.evalPure =
      (evalPairs mat.layout.dim.1 mat.layout.dim.2).foldl
        (fun d p => d.set p.1 p.2 (mat.get_value_unchecked p.1 p.2))
        (MatrixD.zeros_from_dim mat.layout.dim.1 mat.layout.dim.2) := by
  unfold MatrixHandle.evalPure evalPairs
  rw [foldl_flatMap_eq]
  simp only [List.foldl_map]

lemma pure_fold_data [Zero Item] (g : Nat → Nat → Item) :
    ∀ (ps : List (Nat × Nat)) (d : MatrixD Item),
      ps.foldl (fun d2 p => d2.set p.1 p.2 (g p.1 p.2)) d =
        ⟨ps.foldl (fun dd p => dd.set (p.1 * d.layout.dim.2 + p.2) (g p.1 p.2)) d.data,
          d.layout⟩ := by
  intro ps
  induction ps with
  | nil => intro d; rfl
  | cons p ps ih =>
    intro d
    simp only [List.foldl_cons]
    rw [ih]
    rfl

lemma getD_set [Zero Item] (dd : List Item) (i j : Nat) (v : Item) :
    (dd.set i v).getD j 0 = if i = j ∧ j < dd.length then v else dd.getD j 0 := by
  by_cases hij : i = j
  · subst hij
    by_cases hlen : i < dd.length
    · simp [List.getD_eq_getElem?_getD, List.getElem?_set, hlen]
    · have hnone : dd[i]? = none := List.getElem?_eq_none (by omega)
      simp [List.getD_eq_getElem?_getD, List.getElem?_set, hlen, hnone]
  · simp [List.getD_eq_getElem?_getD, List.getElem?_set, hij]

lemma foldl_set_untouched [Zero Item] (g : Nat × Nat → Item) (cols j : Nat) :
    ∀ (ps : List (Nat × Nat)) (dd : List Item),
      (∀ p ∈ ps, p.1 * cols + p.2 ≠ j) →
      (ps.foldl (fun acc p => acc.set (p.1 * cols + p.2) (g p)) dd).getD j 0 =
        dd.getD j 0 := by
  intro ps
  induction ps with
  | nil => intro dd _; rfl
  | cons p ps ih =>
    intro dd hne
    simp only [List.foldl_cons]
    rw [ih _ (fun q hq => hne q (List.mem_cons_of_mem p hq))]
    rw [getD_set]
    simp [hne p (List.mem_cons_self p ps)]

lemma foldl_set_written [Zero Item] (g : Nat × Nat → Item) (cols : Nat) :
    ∀ (ps : List (Nat × Nat)) (dd : List Item) (r c : Nat),
      ps.Nodup → (∀ p ∈ ps, p.2 < cols) → (r, c) ∈ ps → r * cols + c < dd.length →
      (ps.foldl (fun acc p => acc.set (p.1 * cols + p.2) (g p)) dd).getD (r * cols + c) 0 =
        g (r, c) := by
  intro ps
  induction ps with
  | nil => intro dd r c _ _ hmem _; exact absurd hmem (List.not_mem_nil _)
  | cons p ps ih =>
    intro dd r c hnd hall hmem hlen
    simp only [List.foldl_cons]
    rcases List.mem_cons.mp hmem with heq | hmemtail
    · have hp : p = (r, c) := heq.symm
      subst hp
      have hnotin : (r, c) ∉ ps := (List.nodup_cons.mp hnd).1
      have hc : c < cols := hall (r, c) (List.mem_cons_self _ _)
      rw [foldl_set_untouched g cols (r * cols + c) ps _ ?hno]
      case hno =>
        intro q hq heq2
        have hqc : q.2 < cols := hall q (List.mem_cons_of_mem _ hq)
        obtain ⟨h1, h2⟩ := flat_pair_inj hqc hc heq2
        apply hnotin
        have : q = (r, c) := Prod.ext h1 h2
        exact this ▸ hq
      rw [getD_set]
      simp [hlen]
    · have hlen2 : r * cols + c < (dd.set (p.1 * cols + p.2) (g p)).length := by
        rw [List.length_set]
        exact hlen
      exact ih _ r c (List.nodup_cons.mp hnd).2
        (fun q hq => hall q (List.mem_cons_of_mem p hq)) hmemtail hlen2

lemma mem_evalPairs {rows cols r c : Nat} :
    (r, c) ∈ evalPairs rows cols ↔ r < rows ∧ c < cols := by
  simp [evalPairs, List.mem_flatMap, List.mem_map, List.mem_range]

lemma snd_lt_of_mem_evalPairs {rows cols : Nat} :
    ∀ p ∈ evalPairs rows cols, p.2 < cols := by
  intro p hp
  exact (mem_evalPairs.mp hp).2

lemma nodup_evalPairs (rows cols : Nat) : (evalPairs rows cols).Nodup := by
  rw [evalPairs, List.nodup_flatMap]
  constructor
  · intro r _
    exact (List.nodup_range cols).map (fun a b h => by injection h)
  · apply List.Pairwise.imp ?_ (List.nodup_range rows)
    intro a b hab x hxa hxb
    obtain ⟨ca, _, hca⟩ := List.mem_map.mp hxa
    obtain ⟨cb, _, hcb⟩ := List.mem_map.mp hxb
    apply hab
    have : (a, ca) = (b, cb) := by rw [hca, hcb]
    exact (Prod.mk.injEq _ _ _ _).mp this |>.1

lemma eval_layout [Add Item] [Mul Item] [Zero Item] (mat : MatrixHandle Item) :
    (mat.eval).layout =
      DefaultLayout.from_dimension (mat.layout.dim.1, mat.layout.dim.2)
        (1, mat.layout.dim.1) := by
  unfold MatrixHandle.eval
  rw [evalLoop_eq, evalPure_pairs, pure_fold_data]
  rfl

lemma eval_dim [Add Item] [Mul Item] [Zero Item] (mat : MatrixHandle Item) :
    (mat.eval).layout.dim = mat.layout.dim := by
  rw [eval_layout]
  rfl

lemma eval_data_getD [Add Item] [Mul Item] [Zero Item] (mat : MatrixHandle Item)
    {r c : Nat} (hr : r < mat.layout.dim.1) (hc : c < mat.layout.dim.2) :
    (mat.eval).data.getD (r * mat.layout.dim.2 + c) 0 = mat.get_value_unchecked r c := by
  unfold MatrixHandle.eval
  rw [evalLoop_eq, evalPure_pairs, pure_fold_data]
  have hlen :
      r * mat.layout.dim.2 + c <
        (@MatrixD.zeros_from_dim Item _ mat.layout.dim.1 mat.layout.dim.2).data.length := by
    show r * mat.layout.dim.2 + c < (List.replicate (mat.layout.dim.1 * mat.layout.dim.2) (0 : Item)).length
    rw [List.length_replicate]
    exact flat_lt hr hc
  exact foldl_set_written (fun p => mat.get_value_unchecked p.1 p.2) mat.layout.dim.2
    (evalPairs mat.layout.dim.1 mat.layout.dim.2) _ r c
    (nodup_evalPairs _ _) snd_lt_of_mem_evalPairs (mem_evalPairs.mpr ⟨hr, hc⟩) hlen

lemma length_foldl_set {I2 : Type} (g : Nat × Nat → I2) (ix : Nat × Nat → Nat) :
    ∀ (ps : List (Nat × Nat)) (dd : List I2),
      (ps.foldl (fun acc p => acc.set (ix p) (g p)) dd).length = dd.length := by
  intro ps
  induction ps with
  | nil => intro dd; rfl
  | cons p ps ih =>
    intro dd
    simp only [List.foldl_cons]
    rw [ih, List.length_set]

/-- C2: materialization fidelity: `eval` produces storage of the same
dimension whose checked read at every in-range coordinate equals the source
handle's checked read there, and the loop's coordinate sequence `evalPairs`
contains every in-range coordinate with no repetition (each coordinate is
written exactly once). -/
theorem eval_materialization_fidelity [Add Item] [Mul Item] [Zero Item]
    (mat : MatrixHandle Item) (row col : Nat)
    (hr : row < mat.layout.dim.1) (hc : col < mat.layout.dim.2) :
    (mat.eval).layout.dim = mat.layout.dim ∧
    (MatrixHandle.base mat.eval).get_value row col = mat.get_value row col ∧
    (evalPairs mat.layout.dim.1 mat.layout.dim.2).Nodup ∧
    (row, col) ∈ evalPairs mat.layout.dim.1 mat.layout.dim.2 := by
  refine ⟨eval_dim mat, ?_, nodup_evalPairs _ _, mem_evalPairs.mpr ⟨hr, hc⟩⟩
  have hdim : (@MatrixHandle.base Item mat.eval).layout.dim = mat.layout.dim :=
    eval_dim mat
  have hval : (@MatrixHandle.base Item mat.eval).get_value_unchecked row col =
      mat.get_value_unchecked row col := by
    show (mat.eval).data.getD ((mat.eval).layout.convert_2d_1d row col) 0 = _
    rw [eval_layout]
    exact eval_data_getD mat hr hc
  unfold MatrixHandle.get_value
  rw [hdim]
  simp only [hr, hc, if_true, hval]

/-- C6: the evaluation loop never writes to the source handle — the source
component of the loop state is returned unchanged — and the result wraps a
fresh buffer of exactly `rows * cols` slots of the source's dimension. -/
theorem eval_source_frame [Add Item] [Mul Item] [Zero Item] (mat : MatrixHandle Item) :
    (mat.evalLoop).1 = mat ∧
    (mat.eval).data.length = mat.layout.dim.1 * mat.layout.dim.2 ∧
    (mat.eval).layout.dim = mat.layout.dim := by
  refine ⟨by rw [evalLoop_eq], ?_, eval_dim mat⟩
  unfold MatrixHandle.eval
  rw [evalLoop_eq, evalPure_pairs, pure_fold_data]
  exact (length_foldl_set (fun p => mat.get_value_unchecked p.1 p.2)
    (fun p => p.1 * (@MatrixD.zeros_from_dim Item _ mat.layout.dim.1
      mat.layout.dim.2).layout.dim.2 + p.2) _ _).trans
    (List.length_replicate _ _)

/-- C2 witness: evaluation of the concrete 1×2 storage handle at (0, 1). -/
theorem eval_materialization_fidelity_instance :
    (sampleA.eval).layout.dim = sampleA.layout.dim ∧
    (MatrixHandle.base sampleA.eval).get_value 0 1 = sampleA.get_value 0 1 ∧
    (evalPairs sampleA.layout.dim.1 sampleA.layout.dim.2).Nodup ∧
    (0, 1) ∈ evalPairs sampleA.layout.dim.1 sampleA.layout.dim.2 :=
  eval_materialization_fidelity sampleA 0 1 (by decide) (by decide)

lemma foldl_congr_fun {α β : Type} {f g : α → β → α} (h : ∀ a b, f a b = g a b) :
    ∀ (l : List β) (a : α), l.foldl f a = l.foldl g a := by
  intro l
  induction l with
  | nil => intro a; rfl
  | cons x xs ih =>
    intro a
    rw [List.foldl_cons, List.foldl_cons, h a x]
    exact ih _

/-- Handles with the same layout and the same unchecked reads evaluate to the
same storage. -/
lemma eval_congr [Add Item] [Mul Item] [Zero Item] {m1 m2 : MatrixHandle Item}
    (hl : m1.layout = m2.layout)
    (hv : ∀ r c, m1.get_value_unchecked r c = m2.get_value_unchecked r c) :
    m1.eval = m2.eval := by
  unfold MatrixHandle.eval
  rw [evalLoop_eq, evalLoop_eq, evalPure_pairs, evalPure_pairs, hl]
  exact foldl_congr_fun (fun d p => by rw [hv p.1 p.2]) _ _

/-- C8: borrow transparency: for equal-dimension operands, the four
operand-ownership forms of `+` (owned+owned, owned+borrowed, borrowed+owned,
borrowed+borrowed, where borrowing wraps the operand in `MatrixRef`) build
nodes whose materializations are identical storage values. -/
theorem addition_borrow_transparency [Add Item] [Mul Item] [Zero Item]
    (A B : MatrixHandle Item) (h : A.layout.dim = B.layout.dim) :
    (Addition.new A B).isSome = true ∧
    (Addition.new A (MatrixHandle.from_ref B)).map MatrixHandle.eval =
      (Addition.new A B).map MatrixHandle.eval ∧
    (Addition.new (MatrixHandle.from_ref A) B).map MatrixHandle.eval =
      (Addition.new A B).map MatrixHandle.eval ∧
    (Addition.new (MatrixHandle.from_ref A) (MatrixHandle.from_ref B)).map
        MatrixHandle.eval =
      (Addition.new A B).map MatrixHandle.eval := by
  have hoo : Addition.new A B =
      some (.addition A B (DefaultLayout.from_dimension A.layout.dim (1, A.layout.dim.1))) := by
    unfold Addition.new
    rw [if_pos h]
  have hob : Addition.new A (MatrixHandle.from_ref B) =
      some (.addition A (.matrixRef B)
        (DefaultLayout.from_dimension A.layout.dim (1, A.layout.dim.1))) := by
    unfold Addition.new MatrixHandle.from_ref
    rw [if_pos]
    exact h
  have hbo : Addition.new (MatrixHandle.from_ref A) B =
      some (.addition (.matrixRef A) B
        (DefaultLayout.from_dimension A.layout.dim (1, A.layout.dim.1))) := by
    unfold Addition.new MatrixHandle.from_ref
    rw [if_pos]
    · rfl
    · exact h
  have hbb : Addition.new (MatrixHandle.from_ref A) (MatrixHandle.from_ref B) =
      some (.addition (.matrixRef A) (.matrixRef B)
        (DefaultLayout.from_dimension A.layout.dim (1, A.layout.dim.1))) := by
    unfold Addition.new MatrixHandle.from_ref
    rw [if_pos]
    · rfl
    · exact h
  refine ⟨by rw [hoo]; rfl, ?_, ?_, ?_⟩
  · rw [hob, hoo, Option.map_some', Option.map_some']
    exact congrArg some (eval_congr rfl (fun r c => rfl))
  · rw [hbo, hoo, Option.map_some', Option.map_some']
    exact congrArg some (eval_congr rfl (fun r c => rfl))
  · rw [hbb, hoo, Option.map_some', Option.map_some']
    exact congrArg some (eval_congr rfl (fun r c => rfl))

/-- C8 witness: the four ownership forms over the concrete 1×2 operands. -/
theorem addition_borrow_transparency_instance :
    (Addition.new sampleA sampleB).isSome = true ∧
    (Addition.new sampleA (MatrixHandle.from_ref sampleB)).map MatrixHandle.eval =
      (Addition.new sampleA sampleB).map MatrixHandle.eval ∧
    (Addition.new (MatrixHandle.from_ref sampleA) sampleB).map MatrixHandle.eval =
      (Addition.new sampleA sampleB).map MatrixHandle.eval ∧
    (Addition.new (MatrixHandle.from_ref sampleA) (MatrixHandle.from_ref sampleB)).map
        MatrixHandle.eval =
      (Addition.new sampleA sampleB).map MatrixHandle.eval :=
  addition_borrow_transparency sampleA sampleB (by decide)

/-- On every well-formed handle the unchecked flat read at `i` is the
unchecked 2D read at the coordinate `i` maps to under the handle's layout. -/
lemma guv1d_consistent [Add Item] [Mul Item] [Zero Item] (mat : MatrixHandle Item)
    (h : mat.wf = true) :
    ∀ i : Nat,
      mat.get1d_value_unchecked i =
        mat.get_value_unchecked (i / mat.layout.dim.2) (i % mat.layout.dim.2) := by
  induction mat with
  | base b =>
    intro i
    show b.data.getD i 0 =
      b.data.getD
        ((i / b.layout.dim.2) * b.layout.dim.2 + i % b.layout.dim.2) 0
    have hi : (i / b.layout.dim.2) * b.layout.dim.2 + i % b.layout.dim.2 = i := by
      rw [Nat.mul_comm]
      exact Nat.div_add_mod i b.layout.dim.2
    rw [hi]
  | matrixRef m ih => exact ih h
  | addition m1 m2 l ih1 ih2 =>
    simp only [MatrixHandle.wf, Bool.and_eq_true, decide_eq_true_eq] at h
    obtain ⟨⟨⟨hw1, hw2⟩, hd1⟩, hd2⟩ := h
    intro i
    show m1.get1d_value_unchecked i + m2.get1d_value_unchecked i =
      m1.get_value_unchecked (i / l.dim.2) (i % l.dim.2) +
        m2.get_value_unchecked (i / l.dim.2) (i % l.dim.2)
    have hc1 : m1.layout.dim.2 = l.dim.2 := congrArg Prod.snd hd1
    have hc2 : m2.layout.dim.2 = l.dim.2 := congrArg Prod.snd hd2
    rw [ih1 hw1 i, ih2 hw2 i, hc1, hc2]
  | scalarMult k m ih =>
    intro i
    show k * m.get1d_value_unchecked i =
      k * m.get_value_unchecked (i / m.layout.dim.2) (i % m.layout.dim.2)
    rw [ih h i]

/-- C7: on a well-formed handle, the checked flat-index read at any valid flat
index agrees with the checked 2D read at the coordinate that index maps to
under the handle's layout, and both reads succeed. -/
theorem flat_and_2d_access_agree [Add Item] [Mul Item] [Zero Item]
    (mat : MatrixHandle Item) (hwf : mat.wf = true) (i : Nat)
    (hi : i < mat.layout.number_of_elements) :
    mat.get1d_value i =
      mat.get_value (mat.layout.convert_1d_2d i).1 (mat.layout.convert_1d_2d i).2 ∧
    mat.get1d_value i = .ok (mat.get1d_value_unchecked i) := by
  have hi' : i < mat.layout.dim.1 * mat.layout.dim.2 := hi
  have hcpos : 0 < mat.layout.dim.2 := by
    rcases Nat.eq_zero_or_pos mat.layout.dim.2 with hz | hp
    · rw [hz, Nat.mul_zero] at hi'
      omega
    · exact hp
  have hr : i / mat.layout.dim.2 < mat.layout.dim.1 :=
    (Nat.div_lt_iff_lt_mul hcpos).mpr hi'
  have hc : i % mat.layout.dim.2 < mat.layout.dim.2 := Nat.mod_lt _ hcpos
  constructor
  · show mat.get1d_value i =
      mat.get_value (i / mat.layout.dim.2) (i % mat.layout.dim.2)
    unfold MatrixHandle.get1d_value MatrixHandle.get_value
    rw [if_pos hi, if_pos hr, if_pos hc, guv1d_consistent mat hwf i]
  · unfold MatrixHandle.get1d_value
    rw [if_pos hi]

/-- C7 witness: the concrete Addition node over the 1×2 operands at flat
index 1, which maps to coordinate (0, 1). -/
theorem flat_and_2d_access_agree_instance :
    (MatrixHandle.addition sampleA sampleB
        (DefaultLayout.from_dimension (1, 2) (1, 1))).get1d_value 1 =
      (MatrixHandle.addition sampleA sampleB
        (DefaultLayout.from_dimension (1, 2) (1, 1))).get_value
        ((MatrixHandle.addition sampleA sampleB
          (DefaultLayout.from_dimension (1, 2) (1, 1))).layout.convert_1d_2d 1).1
        ((MatrixHandle.addition sampleA sampleB
          (DefaultLayout.from_dimension (1, 2) (1, 1))).layout.convert_1d_2d 1).2 ∧
    (MatrixHandle.addition sampleA sampleB
        (DefaultLayout.from_dimension (1, 2) (1, 1))).get1d_value 1 =
      .ok ((MatrixHandle.addition sampleA sampleB
        (DefaultLayout.from_dimension (1, 2) (1, 1))).get1d_value_unchecked 1) :=
  flat_and_2d_access_agree
    (MatrixHandle.addition sampleA sampleB (DefaultLayout.from_dimension (1, 2) (1, 1)))
    (by decide) 1 (by decide)

/-- C9: the worked scenario of the source test `scalar_mult`
(src/dense/src/addition.rs): with A, B the 2×3 zero matrices carrying 5 and 6
at (1, 2), the node `2 * A + B` materializes to a 2×3 result whose entry at
(1, 2) is 16 and whose other entries are all 0 (the full row-major buffer is
`[0, 0, 0, 0, 0, 16]`). -/
theorem worked_scenario_scalar_mult :
    ∃ node : MatrixHandle Int,
      Addition.new (MatrixHandle.scalarMult 2 (.base scenarioA)) (.base scenarioB) =
        some node ∧
      node.eval.layout.dim = (2, 3) ∧
      (MatrixHandle.base node.eval).get_value 1 2 = .ok 16 ∧
      node.eval.data = [0, 0, 0, 0, 0, 16] := by
  refine ⟨.addition (MatrixHandle.scalarMult 2 (.base scenarioA)) (.base scenarioB)
    (DefaultLayout.from_dimension (2, 3) (1, 2)), ?_, ?_, ?_, ?_⟩
  · rfl
  · rfl
  · rfl
  · rfl
